import Mathlib

/-!
Verification development for the table grid model of
src/src/dependencies/goog-table.js.

The source maintains a logical row/column grid over a DOM table whose cells
may carry rowSpan/colSpan attributes, and offers three operations:
refresh (rebuild the grid from the DOM), mergeCells (collapse a rectangle of
cells into one) and splitCell (decompose a spanned cell into unit cells).

The embedding below models the DOM fragment the code consumes: a table is a
tbody with an ordered list of TR nodes, a TR has an ordered list of TD/TH
children (the output of GoogTable.getChildCellElements), and a TD carries its
colSpan/rowSpan content attributes (none = attribute absent) plus its child
nodes (its innerHTML).  Element identity is modelled by a numeric id.
JavaScript arrays with holes become List (Option _); reading past the end of
an array yields none, matching undefined.  Operations that can throw in
JavaScript (property access on undefined, insertBefore with a foreign
reference node) return Option, with none modelling the thrown exception.
-/

/-- A DOM child node of a table cell: a text node (nodeType 3) or an element
node such as a br. -/
inductive CNode where
  | text (s : String)
  | elem (tag : String)
deriving DecidableEq, Repr

/-- A TD/TH element: identity, colSpan/rowSpan content attributes
(none = attribute absent) and child nodes (its innerHTML). -/
structure Td where
  id : Nat
  colSpanAttr : Option Nat
  rowSpanAttr : Option Nat
  children : List CNode
deriving DecidableEq, Repr

/-- A TR element: identity and its TD/TH children in DOM order
(GoogTable.getChildCellElements filters other child nodes away). -/
structure Tr where
  id : Nat
  cells : List Td
deriving DecidableEq, Repr

/-- The table element: tBodies[0] with its TR children, or none at all. -/
structure Table where
  tbody : Option (List Tr)
deriving DecidableEq, Repr

/-- Effective span of a span attribute: parseInt(attr, 10) || 1, i.e. a
missing (NaN) or zero attribute counts as 1. -/
def spanOf (attr : Option Nat) : Nat :=
  match attr with
  | none => 1
  | some n => if n = 0 then 1 else n

/-- GoogTableCell: wraps one TD element (by id) with its spans and computed
logical coordinates. -/
structure GoogTableCell where
  element : Nat
  colSpan : Nat
  rowSpan : Nat
  startRow : Nat
  startCol : Nat
  endRow : Nat
  endCol : Nat
deriving DecidableEq, Repr

/-- The GoogTableCell constructor: reads the spans from the element and
computes endRow/endCol (updateCoordinates_). -/
def mkCell (td : Td) (startRow startCol : Nat) : GoogTableCell :=
  let cs := spanOf td.colSpanAttr
  let rs := spanOf td.rowSpanAttr
  { element := td.id, colSpan := cs, rowSpan := rs,
    startRow := startRow, startCol := startCol,
    endRow := startRow + rs - 1, endCol := startCol + cs - 1 }

/-- GoogTableRow: index, underlying TR element (none models an undefined
trs[cellRowNum] lookup past the end) and the logical columns array.  Holes in
the JavaScript array are none. -/
structure GoogTableRow where
  index : Nat
  element : Option Nat
  columns : List (Option GoogTableCell)
deriving DecidableEq, Repr

/-- Read columns[n]: undefined (none) past the end or at a hole. -/
def colAt (cols : List (Option GoogTableCell)) (n : Nat) : Option GoogTableCell :=
  cols.getD n none

/-- Grow the columns array to length at least n
(columns.length = minimumColumnLength), filling with holes. -/
def padTo (cols : List (Option GoogTableCell)) (n : Nat) : List (Option GoogTableCell) :=
  cols ++ List.replicate (n - cols.length) none

/-- The inner colSpan loop of refresh: assign the cell into columns
colNum, colNum+1, ... (count iterations). -/
def setRun (cols : List (Option GoogTableCell)) (cell : GoogTableCell) (colNum : Nat) :
    Nat → List (Option GoogTableCell)
  | 0 => cols
  | Nat.succ m => setRun (cols.set colNum (some cell)) cell (colNum + 1) m

/-- Extend a row's columns for a cell and write the cell into every column it
covers (lines 76-84 of the source). -/
def writeCols (r : GoogTableRow) (cell : GoogTableCell) (colNum : Nat) : GoogTableRow :=
  { r with columns := setRun (padTo r.columns (colNum + cell.colSpan)) cell colNum cell.colSpan }

/-- One iteration of the rowSpan loop of refresh: fetch rows[cellRowNum],
pushing a fresh GoogTableRow bound to trs[cellRowNum] when absent (note: push
appends at the end of the array, wherever that is), then write the cell's
columns into it. -/
def placeOne (trs : List Tr) (cell : GoogTableCell) (colNum : Nat)
    (rows : List GoogTableRow) (cellRowNum : Nat) : List GoogTableRow :=
  match rows[cellRowNum]? with
  | some r => rows.set cellRowNum (writeCols r cell colNum)
  | none =>
      rows ++ [writeCols { index := cellRowNum, element := (trs[cellRowNum]?).map Tr.id,
                           columns := [] } cell colNum]

/-- The rowSpan loop of refresh: place the cell into rows rn, rn+1, ...
(count iterations). -/
def placeRows (trs : List Tr) (cell : GoogTableCell) (colNum : Nat) :
    List GoogTableRow → Nat → Nat → List GoogTableRow
  | rows, _, 0 => rows
  | rows, rn, Nat.succ m => placeRows trs cell colNum (placeOne trs cell colNum rows rn) (rn + 1) m

/-- The while loop advancing columnNum past occupied columns.  The fuel is an
upper bound on the number of occupied slots that can be crossed; any slot at
or past cols.length is undefined, so cols.length + 1 fuel always suffices. -/
def skipOccupied (cols : List (Option GoogTableCell)) : Nat → Nat → Nat
  | c, 0 => c
  | c, Nat.succ m => if (colAt cols c).isSome then skipOccupied cols (c + 1) m else c

/-- Process one TD of a physical row: advance columnNum past occupied columns
of the pre-existing logical row (only when the row object already existed when
the cell loop started: existingRow is captured once, and stays undefined for
the whole row otherwise), build the cell, place it, and advance columnNum by
its colSpan. -/
def processCell (trs : List Tr) (rowNum : Nat) (hadExisting : Bool)
    (st : List GoogTableRow × Nat) (td : Td) : List GoogTableRow × Nat :=
  let rows := st.1
  let columnNum :=
    if hadExisting then
      match rows[rowNum]? with
      | some r => skipOccupied r.columns st.2 (r.columns.length + 1)
      | none => st.2
    else st.2
  let cell := mkCell td rowNum columnNum
  (placeRows trs cell columnNum rows rowNum cell.rowSpan, columnNum + cell.colSpan)

/-- Process one physical row of refresh: existingRow is looked up once before
the cell loop, and columnNum restarts at 0. -/
def processRow (trs : List Tr) (rows : List GoogTableRow) (rowNum : Nat) (tr : Tr) :
    List GoogTableRow := (tr.cells.foldl (processCell trs rowNum (rows[rowNum]?).isSome) (rows, 0)).1

/-- The outer row loop of refresh over the physical TR list. -/
def loopRows (trs : List Tr) : List GoogTableRow → Nat → List Tr → List GoogTableRow
  | rows, _, [] => rows
  | rows, rowNum, tr :: rest => loopRows trs (processRow trs rows rowNum tr) (rowNum + 1) rest

/-- GoogTable.prototype.refresh: rebuild the logical rows from the DOM.
With no tbody the result is empty. -/
def refresh (t : Table) : List GoogTableRow :=
  match t.tbody with
  | none => []
  | some trs => loopRows trs [] 0 trs

/-- The GoogTable object: the underlying table element and the logical rows
computed by the last refresh. -/
structure GoogTable where
  table : Table
  rows : List GoogTableRow
deriving DecidableEq, Repr

/-- The GoogTable constructor: store the element and refresh. -/
def mkGoogTable (t : Table) : GoogTable := ⟨t, refresh t⟩

/-- Re-running refresh on the current table element. -/
def refreshState (g : GoogTable) : GoogTable := ⟨g.table, refresh g.table⟩

/-- this.rows[i].columns[j] as an optional lookup on a rows list. -/
def cellAtRows (rows : List GoogTableRow) (i j : Nat) : Option GoogTableCell :=
  (rows[i]?).bind fun r => colAt r.columns j

/-- this.rows[i].columns[j] on a GoogTable. -/
def cellAt (g : GoogTable) (i j : Nat) : Option GoogTableCell :=
  cellAtRows g.rows i j

/-- The id of the element occupying logical position (i, j). -/
def cellIdAt (g : GoogTable) (i j : Nat) : Option Nat :=
  (cellAt g i j).map GoogTableCell.element

/-- First TD with the given id in a cell list. -/
def findTdCells (id : Nat) : List Td → Option Td
  | [] => none
  | td :: rest => if td.id = id then some td else findTdCells id rest

/-- First TD with the given id in the whole tbody (document order). -/
def findTd : List Tr → Nat → Option Td
  | [], _ => none
  | tr :: rest, id =>
      match findTdCells id tr.cells with
      | some td => some td
      | none => findTd rest id

/-- Whether a TD with the given id is attached somewhere under the tbody
(td.parentNode is non-null). -/
def tdPresent (trs : List Tr) (id : Nat) : Bool := (findTd trs id).isSome

/-- Apply f to every TD with the given id (with unique ids: to that TD). -/
def mapTd (trs : List Tr) (id : Nat) (f : Td → Td) : List Tr :=
  trs.map fun tr => { tr with cells := tr.cells.map fun td => if td.id = id then f td else td }

/-- td.parentNode.removeChild(td): detach every TD with the given id. -/
def removeTd (trs : List Tr) (id : Nat) : List Tr :=
  trs.map fun tr => { tr with cells := tr.cells.filter fun td => td.id ≠ id }

/-- targetTd.lastChild && targetTd.lastChild.nodeType == 3: the trailing child
is a text node. -/
def needsSep (children : List CNode) : Bool :=
  match children.getLast? with
  | some (CNode.text _) => true
  | _ => false

/-- The contents of a cell's children after the merge loop body runs for one
source cell: append a br separator when the trailing content is a text node,
then the source cell's children. -/
def mergedChildren (tgt : List CNode) (src : List CNode) : List CNode :=
  tgt ++ (if needsSep tgt then [CNode.elem "br"] else []) ++ src

/-- The body of the merge loop of mergeCells (lines 151-168): skip the cell if
its element is the target or already detached; otherwise append its children
to the target (with the separator rule) and remove its element from its row. -/
def mergeStep (targetId : Nat) (trs : List Tr) (c : GoogTableCell) : List Tr :=
  if c.element = targetId then trs
  else
    match findTd trs c.element with
    | none => trs
    | some td =>
        let trs1 := mapTd trs targetId fun tgt => { tgt with children := mergedChildren tgt.children td.children }
        removeTd trs1 c.element

/-- GoogTableCell.prototype.setColSpan acting on the cell and its element:
only when the value differs, write (value > 1) or clear (otherwise) the
attribute, store the span and recompute endRow/endCol. -/
def setColSpan (c : GoogTableCell) (td : Td) (colSpan : Nat) : GoogTableCell × Td :=
  if colSpan ≠ c.colSpan then
    ({ c with colSpan := colSpan, endCol := c.startCol + colSpan - 1,
              endRow := c.startRow + c.rowSpan - 1 },
     { td with colSpanAttr := if 1 < colSpan then some colSpan else none })
  else (c, td)

/-- GoogTableCell.prototype.setRowSpan acting on the cell and its element. -/
def setRowSpan (c : GoogTableCell) (td : Td) (rowSpan : Nat) : GoogTableCell × Td :=
  if rowSpan ≠ c.rowSpan then
    ({ c with rowSpan := rowSpan, endCol := c.startCol + c.colSpan - 1,
              endRow := c.startRow + rowSpan - 1 },
     { td with rowSpanAttr := if 1 < rowSpan then some rowSpan else none })
  else (c, td)

/-- setColSpan applied to a cell whose element lives in the tbody. -/
def setColSpanEl (trs : List Tr) (c : GoogTableCell) (v : Nat) : List Tr :=
  mapTd trs c.element fun td => (setColSpan c td v).2

/-- setRowSpan applied to a cell whose element lives in the tbody. -/
def setRowSpanEl (trs : List Tr) (c : GoogTableCell) (v : Nat) : List Tr :=
  mapTd trs c.element fun td => (setRowSpan c td v).2

/-- The logical positions scanned by the validation loop of mergeCells, in
row-major order. -/
def rectPositions (sr sc er ec : Nat) : List (Nat × Nat) :=
  (List.range (er + 1 - sr)).flatMap fun di =>
    (List.range (ec + 1 - sc)).map fun dj => (sr + di, sc + dj)

/-- Outcome of the gather/validation loop of mergeCells: a thrown exception
(reading a vacant position), a validation failure (a cell extending outside
the rectangle), or the row-major list of occupying cells. -/
inductive Gather where
  | crash
  | invalid
  | ok (cells : List GoogTableCell)
deriving DecidableEq, Repr

/-- The gather loop (lines 128-145): look up each position, fail on a cell
whose span leaves the rectangle, and collect the cells (one entry per
position, duplicates included). -/
def gatherCells (rows : List GoogTableRow) (sr sc er ec : Nat) :
    List (Nat × Nat) → Gather
  | [] => Gather.ok []
  | (i, j) :: rest =>
      match cellAtRows rows i j with
      | none => Gather.crash
      | some cell =>
          if cell.startRow < sr ∨ er < cell.endRow ∨ cell.startCol < sc ∨ ec < cell.endCol then
            Gather.invalid
          else
            match gatherCells rows sr sc er ec rest with
            | Gather.ok cells => Gather.ok (cell :: cells)
            | r => r

/-- GoogTable.prototype.mergeCells.  Returns none for a thrown exception,
some (false, unchanged state) for a reported failure, and
some (true, new state) on success.  The single-cell rectangle is rejected
up front; after a successful gather the first cell is the target, every other
collected cell is folded through the merge loop body, the target's spans are
set to cover the rectangle and the grid is refreshed. -/
def mergeCells (g : GoogTable) (sr sc er ec : Nat) : Option (Bool × GoogTable) :=
  if sr = er ∧ sc = ec then some (false, g)
  else
    match gatherCells g.rows sr sc er ec (rectPositions sr sc er ec) with
    | Gather.crash => none
    | Gather.invalid => some (false, g)
    | Gather.ok cells =>
        match cells with
        | [] => none
        | target :: restCells =>
            match g.table.tbody with
            | none => none
            | some trs =>
                let trs1 := restCells.foldl (mergeStep target.element) trs
                let trs2 := setColSpanEl trs1 target (ec - sc + 1)
                let trs3 := setRowSpanEl trs2 target (er - sr + 1)
                let t : Table := ⟨some trs3⟩
                some (true, ⟨t, refresh t⟩)

/-- A freshly created empty td element (document.createElement). -/
def newTdNode (id : Nat) : Td := { id := id, colSpanAttr := none, rowSpanAttr := none, children := [] }

/-- insertBefore within a cell list: none when the reference node is not a
child (a thrown NotFoundError). -/
def insertBeforeCells (newTd : Td) (s : Nat) : List Td → Option (List Td)
  | [] => none
  | td :: rest =>
      if td.id = s then some (newTd :: td :: rest)
      else (insertBeforeCells newTd s rest).map (td :: ·)

/-- row.element.insertBefore(td, sib): locate the TR by id and insert, sib
none meaning append at the end. -/
def insertIntoTrs (newTd : Td) (sib : Option Nat) (trId : Nat) : List Tr → Option (List Tr)
  | [] => none
  | tr :: rest =>
      if tr.id = trId then
        match sib with
        | none => some ({ tr with cells := tr.cells ++ [newTd] } :: rest)
        | some s => (insertBeforeCells newTd s tr.cells).map fun cs => ({ tr with cells := cs } :: rest)
      else (insertIntoTrs newTd sib trId rest).map (tr :: ·)

/-- The sibling scan of insertCellElement (lines 223-228): from colIndex step
by each found cell's colSpan until a cell starting in this row (its element is
the reference node) or a vacant slot (null reference).  The fuel covers the
loop the same way as in skipOccupied; none models a scan that does not
terminate (impossible for refresh-produced rows, whose spans are positive). -/
def findSibling (row : GoogTableRow) (rowIndex : Nat) : Nat → Nat → Option (Option Nat)
  | _, 0 => none
  | i, Nat.succ m =>
      match colAt row.columns i with
      | none => some none
      | some cell =>
          if cell.startRow = rowIndex then some (some cell.element)
          else findSibling row rowIndex (i + cell.colSpan) m

/-- GoogTable.prototype.insertCellElement: position a new cell element inside
the TR of logical row rowIndex, before the element of the first cell at or
after colIndex that starts in this row.  Uses the stale logical rows of the
GoogTable while mutating the current tbody. -/
def insertCellElement (g : GoogTable) (trs : List Tr) (newTd : Td) (rowIndex colIndex : Nat) :
    Option (List Tr) :=
  match g.rows[rowIndex]? with
  | none => none
  | some row =>
      match findSibling row rowIndex colIndex (row.columns.length + 1) with
      | none => none
      | some sib =>
          match row.element with
          | none => none
          | some trId => insertIntoTrs newTd sib trId trs

/-- The offsets (i, j) of the creation loop of splitCell, in row-major order,
skipping (0, 0). -/
def splitOffsets (rs cs : Nat) : List (Nat × Nat) :=
  ((List.range rs).flatMap fun i => (List.range cs).map fun j => (i, j)).filter
    fun p => decide (0 < p.1 ∨ 0 < p.2)

/-- The creation loop of splitCell: create a td with the next fresh id and
insert it at each offset position, collecting the new ids in creation
order. -/
def splitLoop (g : GoogTable) (rowIndex colIndex : Nat) :
    List (Nat × Nat) → List Tr → List Nat → Nat → Option (List Tr × List Nat × Nat)
  | [], trs, acc, nid => some (trs, acc, nid)
  | (i, j) :: rest, trs, acc, nid =>
      match insertCellElement g trs (newTdNode nid) (rowIndex + i) (colIndex + j) with
      | none => none
      | some trs1 => splitLoop g rowIndex colIndex rest trs1 (acc ++ [nid]) (nid + 1)

/-- GoogTable.prototype.splitCell.  nid is the next fresh element id for
document.createElement; the returned Nat is the next fresh id afterwards.
none models a thrown exception; in particular newTds[0] is undefined whenever
the cell is a unit cell, so the final innerHTML assignment throws. -/
def splitCell (g : GoogTable) (rowIndex colIndex : Nat) (nid : Nat) :
    Option (List Nat × GoogTable × Nat) :=
  match g.rows[rowIndex]? with
  | none => none
  | some row =>
      match colAt row.columns colIndex with
      | none => none
      | some cell =>
          match g.table.tbody with
          | none => none
          | some trs =>
              match findTd trs cell.element with
              | none => none
              | some cellTd =>
                  let html := cellTd.children
                  match splitLoop g rowIndex colIndex (splitOffsets cell.rowSpan cell.colSpan) trs [] nid with
                  | none => none
                  | some (trs1, newIds, nid1) =>
                      let trs2 := setColSpanEl trs1 cell 1
                      let trs3 := setRowSpanEl trs2 cell 1
                      match newIds with
                      | [] => none
                      | firstId :: _ =>
                          let trs4 := mapTd trs3 firstId fun td => { td with children := html }
                          let trs5 := mapTd trs4 cell.element fun td => { td with children := [] }
                          let t : Table := ⟨some trs5⟩
                          some (newIds, ⟨t, refresh t⟩, nid1)

/-- The children of the element occupying logical position (i, j). -/
def contentAt (g : GoogTable) (i j : Nat) : Option (List CNode) :=
  (cellIdAt g i j).bind fun id =>
    (g.table.tbody.bind fun trs => findTd trs id).map Td.children

/-- Number of TR nodes under the tbody. -/
def numTrs (t : Table) : Nat := (t.tbody.getD []).length

/-- Number of TD nodes under the tbody. -/
def countTds (t : Table) : Nat := ((t.tbody.getD []).map fun tr => tr.cells.length).sum

/-- The cells visible somewhere in a logical grid. -/
def gridCells (rows : List GoogTableRow) : List GoogTableCell :=
  (rows.map fun r => r.columns.reduceOption).flatten

/-- Logical position (i, j) lies in the span rectangle of a cell. -/
def inRect (c : GoogTableCell) (i j : Nat) : Prop :=
  c.startRow ≤ i ∧ i ≤ c.endRow ∧ c.startCol ≤ j ∧ j ≤ c.endCol

instance (c : GoogTableCell) (i j : Nat) : Decidable (inRect c i j) := by
  unfold inRect; infer_instance

/-- The span rectangles of two cells share a logical position. -/
def rectsIntersect (c d : GoogTableCell) : Prop :=
  max c.startRow d.startRow ≤ min c.endRow d.endRow ∧
  max c.startCol d.startCol ≤ min c.endCol d.endCol

instance (c d : GoogTableCell) : Decidable (rectsIntersect c d) := by
  unfold rectsIntersect; infer_instance

/-! ### Concrete tables used by the claims -/

/-- A 2-row table whose only cell spans 2x2 and holds content s. -/
def t1 (s : List CNode) : Table :=
  ⟨some [⟨0, [⟨1, some 2, some 2, s⟩]⟩, ⟨10, []⟩]⟩

/-- A 1x1 table with a single unit cell. -/
def t5 : Table := ⟨some [⟨0, [⟨1, none, none, []⟩]⟩]⟩

/-- A 3x3 table of unit cells (elements 1..9). -/
def t7 : Table :=
  ⟨some [⟨10, [⟨1, none, none, []⟩, ⟨2, none, none, []⟩, ⟨3, none, none, []⟩]⟩,
         ⟨11, [⟨4, none, none, []⟩, ⟨5, none, none, []⟩, ⟨6, none, none, []⟩]⟩,
         ⟨12, [⟨7, none, none, []⟩, ⟨8, none, none, []⟩, ⟨9, none, none, []⟩]⟩]⟩

/-- Row 0 has a single cell, row 1 has a unit cell and a colSpan-2 cell, so
position (0, 1) of the grid is vacant while (1, 1) holds a cell whose span
leaves the rectangle (0,0)-(1,1). -/
def tc2 : Table :=
  ⟨some [⟨20, [⟨1, none, none, []⟩]⟩,
         ⟨21, [⟨2, none, none, []⟩, ⟨3, some 2, none, []⟩]⟩]⟩

/-- A rowSpan-2 cell at (0, 1): position (0, 1) of the rectangle (0,0)-(0,1)
holds a cell extending below it, with no vacancy scanned before it. -/
def tInv : Table :=
  ⟨some [⟨30, [⟨1, none, none, []⟩, ⟨2, none, some 2, []⟩]⟩,
         ⟨31, [⟨3, none, none, []⟩]⟩]⟩

/-- A table with a single empty TR node. -/
def t3tbl : Table := ⟨some [⟨0, []⟩]⟩

/-- Row 1 is empty but covered by the rowSpan-2 cell of row 0. -/
def t3w : Table := ⟨some [⟨0, [⟨1, none, some 2, []⟩]⟩, ⟨10, []⟩]⟩

/-- Overlapping spans: the rowSpan-2 cell at (0, 1) and the colSpan-2 cell
starting at (1, 0) both cover position (1, 1). -/
def t4tbl : Table :=
  ⟨some [⟨20, [⟨1, none, none, []⟩, ⟨2, none, some 2, []⟩]⟩,
         ⟨21, [⟨3, some 2, none, []⟩]⟩]⟩

/-- A well-formed 2x2 layout: a rowSpan-2 cell at (0, 0), unit cells at
(0, 1) and (1, 1). -/
def t4w : Table :=
  ⟨some [⟨20, [⟨1, none, some 2, []⟩, ⟨2, none, none, []⟩]⟩,
         ⟨21, [⟨3, none, none, []⟩]⟩]⟩

/-- One row holding a text-content cell (the merge target) and an
element-content cell. -/
def trsW : List Tr :=
  [⟨0, [⟨1, none, none, [CNode.text "a"]⟩, ⟨2, none, none, [CNode.elem "p"]⟩]⟩]

/-- The grid cell wrapping element 2 of trsW. -/
def cW : GoogTableCell := ⟨2, 1, 1, 0, 1, 0, 1⟩

/-- The grid cell wrapping the rowSpan-2 element 2 of t4tbl. -/
def bCell : GoogTableCell := ⟨2, 1, 2, 0, 1, 1, 1⟩

/-- The grid cell wrapping the rowSpan-2 element 1 of t4w. -/
def aCell : GoogTableCell := ⟨1, 1, 2, 0, 0, 1, 0⟩

/-- The state splitCell produces from t1: the first created element 100 sits
physically before the original element 1 in row 0, elements 101 and 102 fill
row 1, the original element is cleared and element 100 received its
content. -/
def gSplit (s : List CNode) : GoogTable :=
  ⟨⟨some [⟨0, [⟨100, none, none, s⟩, ⟨1, none, none, []⟩]⟩,
          ⟨10, [⟨101, none, none, []⟩, ⟨102, none, none, []⟩]⟩]⟩,
   [⟨0, some 0, [some ⟨100, 1, 1, 0, 0, 0, 0⟩, some ⟨1, 1, 1, 0, 1, 0, 1⟩]⟩,
    ⟨1, some 10, [some ⟨101, 1, 1, 1, 0, 1, 0⟩, some ⟨102, 1, 1, 1, 1, 1, 1⟩]⟩]⟩


/-- The state mergeCells produces from t7: element 1 spans the 2x2 rectangle,
elements 2, 4 and 5 are gone, the rest are unchanged unit cells. -/
def g7res : GoogTable :=
  ⟨⟨some [⟨10, [⟨1, some 2, some 2, []⟩, ⟨3, none, none, []⟩]⟩,
          ⟨11, [⟨6, none, none, []⟩]⟩,
          ⟨12, [⟨7, none, none, []⟩, ⟨8, none, none, []⟩, ⟨9, none, none, []⟩]⟩]⟩,
   [⟨0, some 10, [some ⟨1, 2, 2, 0, 0, 1, 1⟩, some ⟨1, 2, 2, 0, 0, 1, 1⟩,
                  some ⟨3, 1, 1, 0, 2, 0, 2⟩]⟩,
    ⟨1, some 11, [some ⟨1, 2, 2, 0, 0, 1, 1⟩, some ⟨1, 2, 2, 0, 0, 1, 1⟩,
                  some ⟨6, 1, 1, 1, 2, 1, 2⟩]⟩,
    ⟨2, some 12, [some ⟨7, 1, 1, 2, 0, 2, 0⟩, some ⟨8, 1, 1, 2, 1, 2, 1⟩,
                  some ⟨9, 1, 1, 2, 2, 2, 2⟩]⟩]⟩


/-! ### Further definitions for the invariant claims -/

/-- Every physical row has a cell of its own or lies under the rowSpan of a
cell of an earlier row. -/
def RowsNonemptyOrCovered (trs : List Tr) : Prop :=
  ∀ k, k < trs.length →
    (trs.getD k ⟨0, []⟩).cells ≠ [] ∨
    ∃ j, j < k ∧ ∃ td ∈ (trs.getD j ⟨0, []⟩).cells, k < j + spanOf td.rowSpanAttr

instance (trs : List Tr) : Decidable (RowsNonemptyOrCovered trs) := by
  unfold RowsNonemptyOrCovered
  infer_instance

/-- No cell's rowSpan reaches past the last physical row. -/
def SpansInBounds (trs : List Tr) : Prop :=
  ∀ k, k < trs.length →
    ∀ td ∈ (trs.getD k ⟨0, []⟩).cells, k + spanOf td.rowSpanAttr ≤ trs.length

instance (trs : List Tr) : Decidable (SpansInBounds trs) := by
  unfold SpansInBounds
  infer_instance

/-- Every occupied grid slot lies inside the span rectangle of the cell
occupying it. -/
def OccInv (rows : List GoogTableRow) : Prop :=
  ∀ i j cl, cellAtRows rows i j = some cl → inRect cl i j

/-- The full span rectangle of every visible cell is occupied. -/
def FullInv (rows : List GoogTableRow) : Prop :=
  ∀ i j cl, cellAtRows rows i j = some cl →
    ∀ p q, inRect cl p q → (cellAtRows rows p q).isSome

/-- The span rectangles of distinct visible cells are pairwise disjoint. -/
def CellsDisjoint (rows : List GoogTableRow) : Prop :=
  ∀ cl ∈ gridCells rows, ∀ dl ∈ gridCells rows, cl ≠ dl → ¬ rectsIntersect cl dl

instance (rows : List GoogTableRow) : Decidable (CellsDisjoint rows) := by
  unfold CellsDisjoint
  infer_instance


/-! ### Directly computed claims -/

set_option maxHeartbeats 2000000 in
/-- C1: splitting the rowSpan=2, colSpan=2 cell at (0,0) yields 4 unit cells
at (0,0), (0,1), (1,0), (1,1), returns exactly the 3 newly created cell
nodes, and afterwards the original content sits solely in the cell at logical
(0,0) (the first created node, inserted physically before the original
element) while the other three cells are empty. -/
theorem splitCell_2x2_unit_decomposition (s : List CNode) :
    splitCell (mkGoogTable (t1 s)) 0 0 100 = some ([100, 101, 102], gSplit s, 103) ∧
    cellAt (gSplit s) 0 0 = some ⟨100, 1, 1, 0, 0, 0, 0⟩ ∧
    cellAt (gSplit s) 0 1 = some ⟨1, 1, 1, 0, 1, 0, 1⟩ ∧
    cellAt (gSplit s) 1 0 = some ⟨101, 1, 1, 1, 0, 1, 0⟩ ∧
    cellAt (gSplit s) 1 1 = some ⟨102, 1, 1, 1, 1, 1, 1⟩ ∧
    contentAt (gSplit s) 0 0 = some s ∧
    contentAt (gSplit s) 0 1 = some [] ∧
    contentAt (gSplit s) 1 0 = some [] ∧
    contentAt (gSplit s) 1 1 = some [] :=
  ⟨rfl, rfl, rfl, rfl, rfl, rfl, rfl, rfl, rfl⟩

/-- C6: merging a single-cell rectangle is rejected: mergeCells returns false
and the GoogTable (tree and grid) is unchanged. -/
theorem mergeCells_single_cell_rejected (g : GoogTable) (r c : Nat) :
    mergeCells g r c r c = some (false, g) := by
  simp [mergeCells]

set_option maxHeartbeats 2000000 in
/-- C7: on the 3x3 grid of unit cells, mergeCells(0,0,1,1) succeeds, leaves
exactly one 2x2-spanned cell covering the rectangle, keeps the other three
cells as unit cells, and drops the cell node count from 9 to 6. -/
theorem mergeCells_3x3_collapse :
    countTds t7 = 9 ∧
    mergeCells (mkGoogTable t7) 0 0 1 1 = some (true, g7res) ∧
    countTds g7res.table = 6 ∧
    cellAt g7res 0 0 = some ⟨1, 2, 2, 0, 0, 1, 1⟩ ∧
    cellAt g7res 0 1 = some ⟨1, 2, 2, 0, 0, 1, 1⟩ ∧
    cellAt g7res 1 0 = some ⟨1, 2, 2, 0, 0, 1, 1⟩ ∧
    cellAt g7res 1 1 = some ⟨1, 2, 2, 0, 0, 1, 1⟩ ∧
    cellAt g7res 0 2 = some ⟨3, 1, 1, 0, 2, 0, 2⟩ ∧
    cellAt g7res 1 2 = some ⟨6, 1, 1, 1, 2, 1, 2⟩ ∧
    cellAt g7res 2 0 = some ⟨7, 1, 1, 2, 0, 2, 0⟩ ∧
    cellAt g7res 2 1 = some ⟨8, 1, 1, 2, 1, 2, 1⟩ ∧
    cellAt g7res 2 2 = some ⟨9, 1, 1, 2, 2, 2, 2⟩ :=
  ⟨rfl, rfl, rfl, rfl, rfl, rfl, rfl, rfl, rfl, rfl, rfl, rfl⟩

/-- C8: refresh is idempotent: re-running refresh with no intervening tree
mutation neither changes the tree nor produces a different logical grid. -/
theorem refresh_idempotent (g : GoogTable) :
    refreshState (refreshState g) = refreshState g ∧ (refreshState g).table = g.table :=
  ⟨rfl, rfl⟩

/-- C10: calling a span setter with the cell's current span value is a
complete no-op on both the cell and its element. -/
theorem setSpan_same_value_noop (c : GoogTableCell) (td : Td) :
    setColSpan c td c.colSpan = (c, td) ∧ setRowSpan c td c.rowSpan = (c, td) := by
  constructor <;> simp [setColSpan, setRowSpan]

/-- C5 counterexample: on a unit cell the split loop creates no node, so the
newTds[0].innerHTML assignment dereferences undefined and splitCell throws
instead of returning an empty list. -/
theorem splitCell_unit_cell_crashes :
    cellAt (mkGoogTable t5) 0 0 = some ⟨1, 1, 1, 0, 0, 0, 0⟩ ∧
    splitCell (mkGoogTable t5) 0 0 100 = none :=
  ⟨rfl, rfl⟩

/-- C2 counterexample: position (1,1) of the rectangle (0,0)-(1,1) is
occupied by a cell whose span leaves the rectangle (endCol = 2), but the
row-major scan reads the vacant position (0,1) first and throws, so
mergeCells neither returns false nor anything else. -/
theorem mergeCells_vacancy_crash :
    cellAt (mkGoogTable tc2) 1 1 = some ⟨3, 2, 1, 1, 1, 1, 2⟩ ∧
    cellAt (mkGoogTable tc2) 0 1 = none ∧
    mergeCells (mkGoogTable tc2) 0 0 1 1 = none :=
  ⟨rfl, rfl, rfl⟩

/-- C3 counterexample: a physical row with zero cell children that no span
covers produces no Row entry at all, so rows.length falls short of the number
of physical row nodes. -/
theorem refresh_empty_row_no_entry :
    numTrs t3tbl = 1 ∧ refresh t3tbl = [] ∧ (refresh t3tbl).length ≠ numTrs t3tbl :=
  ⟨rfl, rfl, by decide⟩

/-- C4 counterexample: with overlapping spans the colSpan-2 cell placed at
(1,0) overwrites the grid slot (1,1) that the rowSpan-2 cell at (0,1) covers,
so that cell's rectangle no longer maps back to it. -/
theorem refresh_overlap_breaks_coverage :
    cellAt (mkGoogTable t4tbl) 0 1 = some bCell ∧
    inRect bCell 1 1 ∧
    cellAt (mkGoogTable t4tbl) 1 1 ≠ some bCell :=
  ⟨rfl, by decide, by decide⟩

/-! ### Merge failure leaves the state unchanged (C2) -/

/-- C2 (amended): whenever mergeCells reports failure (returns false) the
GoogTable — tree and grid — is unchanged, and a validation-failing gather
(a cell of the rectangle extending outside it, reached with no vacant
position scanned before it) does make mergeCells return false with the state
unchanged.  When a vacant position is scanned first the call instead throws
(see the counterexample), still without mutating. -/
theorem mergeCells_false_state_unchanged :
    (∀ (g gOut : GoogTable) (sr sc er ec : Nat),
        mergeCells g sr sc er ec = some (false, gOut) → gOut = g) ∧
    (∀ (g : GoogTable) (sr sc er ec : Nat),
        gatherCells g.rows sr sc er ec (rectPositions sr sc er ec) = Gather.invalid →
        mergeCells g sr sc er ec = some (false, g)) := by
  constructor
  · intro g gOut sr sc er ec h
    unfold mergeCells at h
    repeat' split at h
    all_goals simp_all
  · intro g sr sc er ec h
    unfold mergeCells
    split
    · rfl
    · rw [h]

/-- Witness for C2: a concrete rectangle whose position (0,1) holds a cell
extending below the rectangle; mergeCells returns false and the state is
returned unchanged. -/
theorem mergeCells_false_state_unchanged_witness :
    mergeCells (mkGoogTable tInv) 0 0 0 1 = some (false, mkGoogTable tInv) :=
  mergeCells_false_state_unchanged.2 (mkGoogTable tInv) 0 0 0 1 rfl

/-! ### The merge loop body: separator rule and removal (C9) -/

theorem findTdCells_id (id : Nat) :
    ∀ cells td, findTdCells id cells = some td → td.id = id := by
  intro cells
  induction cells with
  | nil => intro td h; cases h
  | cons c rest ih =>
      intro td h
      unfold findTdCells at h
      split at h
      · cases h; assumption
      · exact ih td h

theorem findTd_id (trs : List Tr) (id : Nat) :
    ∀ td, findTd trs id = some td → td.id = id := by
  induction trs with
  | nil => intro td h; cases h
  | cons tr rest ih =>
      intro td h
      unfold findTd at h
      cases hc : findTdCells id tr.cells with
      | some td1 => rw [hc] at h; cases h; exact findTdCells_id id tr.cells _ hc
      | none => rw [hc] at h; exact ih td h

theorem findTd_cons (tr : Tr) (rest : List Tr) (id : Nat) :
    findTd (tr :: rest) id =
      match findTdCells id tr.cells with
      | some td => some td
      | none => findTd rest id := rfl

theorem mapTd_cons (tr : Tr) (rest : List Tr) (tid : Nat) (f : Td → Td) :
    mapTd (tr :: rest) tid f =
      { tr with cells := tr.cells.map fun td => if td.id = tid then f td else td } ::
        mapTd rest tid f := rfl

theorem removeTd_cons (tr : Tr) (rest : List Tr) (rid : Nat) :
    removeTd (tr :: rest) rid =
      { tr with cells := tr.cells.filter fun td => td.id ≠ rid } :: removeTd rest rid := rfl

theorem findTdCells_map (tid id : Nat) (f : Td → Td) (hf : ∀ td, (f td).id = td.id) :
    ∀ cells : List Td,
      findTdCells id (cells.map fun td => if td.id = tid then f td else td) =
      (findTdCells id cells).map fun td => if td.id = tid then f td else td := by
  intro cells
  induction cells with
  | nil => rfl
  | cons c rest ih =>
      simp only [List.map_cons, findTdCells]
      by_cases h1 : c.id = tid
      · rw [if_pos h1, hf c]
        by_cases h2 : c.id = id
        · rw [if_pos h2, if_pos h2]
          show some (f c) = some (if c.id = tid then f c else c)
          rw [if_pos h1]
        · rw [if_neg h2, if_neg h2, ih]
      · rw [if_neg h1]
        by_cases h2 : c.id = id
        · rw [if_pos h2, if_pos h2]
          show some c = some (if c.id = tid then f c else c)
          rw [if_neg h1]
        · rw [if_neg h2, if_neg h2, ih]

theorem findTd_mapTd (tid id : Nat) (f : Td → Td) (hf : ∀ td, (f td).id = td.id) :
    ∀ trs, findTd (mapTd trs tid f) id =
      (findTd trs id).map fun td => if td.id = tid then f td else td := by
  intro trs
  induction trs with
  | nil => rfl
  | cons tr rest ih =>
      rw [mapTd_cons, findTd_cons, findTd_cons]
      dsimp only
      rw [findTdCells_map tid id f hf]
      cases hc : findTdCells id tr.cells with
      | some td => rfl
      | none => exact ih

theorem findTdCells_filter_self (rid : Nat) :
    ∀ cells : List Td, findTdCells rid (cells.filter fun td => td.id ≠ rid) = none := by
  intro cells
  induction cells with
  | nil => rfl
  | cons c rest ih =>
      rw [List.filter_cons]
      by_cases h : c.id = rid
      · rw [if_neg (by simp [h])]
        exact ih
      · rw [if_pos (by simp [h])]
        simp only [findTdCells]
        rw [if_neg h]
        exact ih

theorem findTdCells_filter_ne (id rid : Nat) (hne : id ≠ rid) :
    ∀ cells : List Td,
      findTdCells id (cells.filter fun td => td.id ≠ rid) = findTdCells id cells := by
  intro cells
  induction cells with
  | nil => rfl
  | cons c rest ih =>
      rw [List.filter_cons]
      by_cases h : c.id = rid
      · rw [if_neg (by simp [h])]
        rw [ih]
        simp only [findTdCells]
        rw [if_neg (by omega)]
      · rw [if_pos (by simp [h])]
        simp only [findTdCells]
        by_cases h2 : c.id = id
        · rw [if_pos h2, if_pos h2]
        · rw [if_neg h2, if_neg h2, ih]

theorem findTd_removeTd_self (rid : Nat) :
    ∀ trs, findTd (removeTd trs rid) rid = none := by
  intro trs
  induction trs with
  | nil => rfl
  | cons tr rest ih =>
      rw [removeTd_cons, findTd_cons]
      dsimp only
      rw [findTdCells_filter_self rid]
      exact ih

theorem findTd_removeTd_ne (id rid : Nat) (hne : id ≠ rid) :
    ∀ trs, findTd (removeTd trs rid) id = findTd trs id := by
  intro trs
  induction trs with
  | nil => rfl
  | cons tr rest ih =>
      rw [removeTd_cons, findTd_cons, findTd_cons]
      dsimp only
      rw [findTdCells_filter_ne id rid hne]
      cases hc : findTdCells id tr.cells with
      | some td => rfl
      | none => exact ih

/-- C9: for a distinct, still-attached non-target cell the merge loop body
appends that cell's content to the target with a br separator inserted
exactly when the target's trailing content is a plain text node (the
mergedChildren rule), and then removes that cell's element from the tree. -/
theorem mergeStep_separator_and_removal
    (trs : List Tr) (tid : Nat) (c : GoogTableCell) (td tgt : Td)
    (hne : c.element ≠ tid)
    (hc : findTd trs c.element = some td)
    (ht : findTd trs tid = some tgt) :
    findTd (mergeStep tid trs c) tid =
      some { tgt with children := mergedChildren tgt.children td.children } ∧
    findTd (mergeStep tid trs c) c.element = none := by
  have hstep : mergeStep tid trs c =
      removeTd (mapTd trs tid fun t => { t with children := mergedChildren t.children td.children })
        c.element := by
    unfold mergeStep
    rw [if_neg hne, hc]
  rw [hstep]
  constructor
  · rw [findTd_removeTd_ne tid c.element (fun h => hne h.symm)]
    rw [findTd_mapTd tid tid
      (fun t => { t with children := mergedChildren t.children td.children }) (fun _ => rfl)]
    rw [ht]
    have htid : tgt.id = tid := findTd_id trs tid tgt ht
    show some (if tgt.id = tid then _ else tgt) = _
    rw [if_pos htid]
  · exact findTd_removeTd_self c.element _

/-- Witness for C9: merging the element-content cell 2 into the
text-content target 1 inserts a br (the target's trailing content is text)
and detaches element 2. -/
theorem mergeStep_separator_and_removal_witness :
    findTd (mergeStep 1 trsW cW) 1 =
      some ⟨1, none, none, [CNode.text "a", CNode.elem "br", CNode.elem "p"]⟩ ∧
    findTd (mergeStep 1 trsW cW) 2 = none := by
  have h := mergeStep_separator_and_removal trsW 1 cW
    ⟨2, none, none, [CNode.elem "p"]⟩ ⟨1, none, none, [CNode.text "a"]⟩
    (by decide) rfl rfl
  refine ⟨?_, h.2⟩
  rw [h.1]
  rfl

/-! ### splitCell returns the created nodes (C5) -/

theorem splitLoop_ids (g : GoogTable) (rowIndex colIndex : Nat) :
    ∀ (offs : List (Nat × Nat)) (trs : List Tr) (acc : List Nat) (nid : Nat)
      (trs1 : List Tr) (ids : List Nat) (nid1 : Nat),
      splitLoop g rowIndex colIndex offs trs acc nid = some (trs1, ids, nid1) →
      ids = acc ++ List.range' nid offs.length ∧ nid1 = nid + offs.length := by
  intro offs
  induction offs with
  | nil =>
      intro trs acc nid trs1 ids nid1 h
      cases h
      simp
  | cons p rest ih =>
      intro trs acc nid trs1 ids nid1 h
      obtain ⟨i, j⟩ := p
      unfold splitLoop at h
      split at h
      · exact Option.noConfusion h
      next trs2 hins =>
        obtain ⟨h1, h2⟩ := ih trs2 (acc ++ [nid]) (nid + 1) trs1 ids nid1 h
        constructor
        · rw [h1, List.append_assoc]
          rfl
        · rw [h2, List.length_cons]
          omega

theorem flatMap_nil_fun {α β : Type} (l : List α) :
    (l.flatMap fun _ => ([] : List β)) = [] := by
  induction l with
  | nil => rfl
  | cons a t ih => simp [List.flatMap_cons, ih]

theorem splitOffsets_row_zero :
    ∀ l : List Nat,
      (l.map fun j => ((0 : Nat), j)).filter (fun p => decide (0 < p.1 ∨ 0 < p.2)) =
      (l.filter fun j => decide (0 < j)).map fun j => ((0 : Nat), j) := by
  intro l
  induction l with
  | nil => rfl
  | cons a t ih =>
      by_cases h : 0 < a
      · rw [List.map_cons, List.filter_cons, if_pos (by simp [h]), List.filter_cons,
          if_pos (by simpa using h), List.map_cons, ih]
      · rw [List.map_cons, List.filter_cons, if_neg (by simp [h]), List.filter_cons,
          if_neg (by simpa using h), ih]

theorem splitOffsets_row_succ (i : Nat) :
    ∀ l : List Nat,
      (l.map fun j => (i + 1, j)).filter (fun p => decide (0 < p.1 ∨ 0 < p.2)) =
      l.map fun j => (i + 1, j) := by
  intro l
  induction l with
  | nil => rfl
  | cons a t ih => simp [List.filter_cons, ih]

theorem length_filter_pos_range (cs : Nat) :
    ((List.range cs).filter fun j => decide (0 < j)).length = cs - 1 := by
  induction cs with
  | zero => rfl
  | succ n ih =>
      rw [List.range_succ, List.filter_append, List.length_append, ih]
      rcases Nat.eq_zero_or_pos n with h | h
      · subst h; rfl
      · simp [h]
        omega

theorem splitOffsets_length (rs cs : Nat) (hrs : 0 < rs) (hcs : 0 < cs) :
    (splitOffsets rs cs).length = rs * cs - 1 := by
  obtain ⟨r, rfl⟩ : ∃ r, rs = r + 1 := ⟨rs - 1, by omega⟩
  clear hrs
  induction r with
  | zero =>
      show (splitOffsets 1 cs).length = 1 * cs - 1
      unfold splitOffsets
      rw [show List.range 1 = [0] from rfl]
      rw [show ([0] : List Nat).flatMap (fun i => (List.range cs).map fun j => (i, j)) =
            (List.range cs).map fun j => ((0 : Nat), j) by simp]
      rw [splitOffsets_row_zero, List.length_map, length_filter_pos_range]
      omega
  | succ r ihr =>
      unfold splitOffsets at ihr ⊢
      rw [List.range_succ, List.flatMap_append, List.filter_append, List.length_append, ihr]
      rw [show ([r + 1] : List Nat).flatMap (fun i => (List.range cs).map fun j => (i, j)) =
            (List.range cs).map fun j => (r + 1, j) by simp]
      rw [splitOffsets_row_succ, List.length_map, List.length_range]
      have h1 : 0 < (r + 1) * cs := Nat.mul_pos (by omega) hcs
      have h2 : (r + 1 + 1) * cs = (r + 1) * cs + cs := by ring
      omega

/-- C5 (amended): whenever splitCell succeeds on the cell at a valid logical
position, the returned list is exactly the rowSpan * colSpan - 1 newly
created elements, carrying consecutive fresh ids in row-major creation order,
and the original element is not among them.  On a unit cell splitCell never
succeeds: it throws on newTds[0] (see the counterexample). -/
theorem splitCell_returns_created_nodes
    (g : GoogTable) (r c nid : Nat) (cell : GoogTableCell)
    (ids : List Nat) (gOut : GoogTable) (nid1 : Nat)
    (hcell : cellAt g r c = some cell)
    (h : splitCell g r c nid = some (ids, gOut, nid1))
    (hfresh : cell.element < nid) :
    ids = List.range' nid (cell.rowSpan * cell.colSpan - 1) ∧
    ids.length = cell.rowSpan * cell.colSpan - 1 ∧
    cell.element ∉ ids := by
  unfold splitCell at h
  split at h
  · exact Option.noConfusion h
  next row hrow =>
    split at h
    · exact Option.noConfusion h
    next cell2 hcol =>
      have hcell2 : cell2 = cell := by
        unfold cellAt cellAtRows at hcell
        rw [hrow] at hcell
        have hc2 : colAt row.columns c = some cell := hcell
        rw [hcol] at hc2
        exact (Option.some.injEq _ _ ▸ hc2)
      subst hcell2
      split at h
      · exact Option.noConfusion h
      next trs htb =>
        split at h
        · exact Option.noConfusion h
        next cellTd hfind =>
          split at h
          · exact Option.noConfusion h
          next trs1 newIds nid2 hloop =>
            split at h
            · exact Option.noConfusion h
            next firstId restIds =>
              simp only [Option.some.injEq, Prod.mk.injEq] at h
              obtain ⟨hids, hgOut, hnid⟩ := h
              obtain ⟨hlist, hcount⟩ :=
                splitLoop_ids g r c (splitOffsets cell2.rowSpan cell2.colSpan) trs [] nid
                  trs1 (firstId :: restIds) nid2 hloop
              rw [List.nil_append] at hlist
              have hL : 0 < (splitOffsets cell2.rowSpan cell2.colSpan).length := by
                by_contra hL0
                have hz : (splitOffsets cell2.rowSpan cell2.colSpan).length = 0 := by omega
                rw [hz] at hlist
                exact List.noConfusion hlist
              have hrs : 0 < cell2.rowSpan := by
                by_contra h0
                have hz : cell2.rowSpan = 0 := by omega
                rw [hz] at hL
                simp [splitOffsets] at hL
              have hcs : 0 < cell2.colSpan := by
                by_contra h0
                have hz : cell2.colSpan = 0 := by omega
                have hempty : splitOffsets cell2.rowSpan cell2.colSpan = [] := by
                  rw [hz]
                  unfold splitOffsets
                  have hin : ((List.range cell2.rowSpan).flatMap fun i =>
                      (List.range 0).map fun j => (i, j)) = [] := by
                    simp [flatMap_nil_fun]
                  rw [hin]
                  rfl
                rw [hempty] at hL
                simp at hL
              have hlen := splitOffsets_length cell2.rowSpan cell2.colSpan hrs hcs
              rw [hlen] at hlist
              refine ⟨by rw [← hids, hlist], ?_, ?_⟩
              · rw [← hids, hlist, List.length_range']
              · rw [← hids, hlist]
                intro hmem
                rw [List.mem_range'_1] at hmem
                omega

/-- Witness for C5: splitting the 2x2 cell of t1 returns the three
consecutive fresh elements 100, 101, 102 and not the original element 1. -/
theorem splitCell_returns_created_nodes_witness :
    [100, 101, 102] = List.range' 100 (2 * 2 - 1) ∧
    ([100, 101, 102] : List Nat).length = 2 * 2 - 1 ∧
    (1 : Nat) ∉ [100, 101, 102] := by
  have h := splitCell_returns_created_nodes (mkGoogTable (t1 [])) 0 0 100
    ⟨1, 2, 2, 0, 0, 1, 1⟩ [100, 101, 102] (gSplit []) 103 rfl rfl (by decide)
  exact h

/-! ### Slot semantics of the placement loops of refresh (towards C3, C4) -/

theorem spanOf_pos (a : Option Nat) : 0 < spanOf a := by
  cases a with
  | none => exact Nat.one_pos
  | some n =>
      simp only [spanOf]
      split <;> omega

theorem colAt_padTo (cols : List (Option GoogTableCell)) (n j : Nat) :
    colAt (padTo cols n) j = colAt cols j := by
  unfold colAt padTo
  rcases Nat.lt_or_ge j cols.length with h | h
  · rw [List.getD_append _ _ _ _ h]
  · rw [List.getD_append_right _ _ _ _ h, List.getD_eq_default _ _ h]
    rw [List.getD_eq_getElem?_getD, List.getElem?_getD_replicate_default_eq]

theorem length_padTo (cols : List (Option GoogTableCell)) (n : Nat) :
    (padTo cols n).length = max cols.length n := by
  unfold padTo
  rw [List.length_append, List.length_replicate]
  omega

theorem colAt_set_self (cols : List (Option GoogTableCell)) (i : Nat)
    (x : Option GoogTableCell) (h : i < cols.length) :
    colAt (cols.set i x) i = x := by
  unfold colAt
  rw [List.getD_eq_getElem?_getD, List.getElem?_set_eq_of_lt x h]
  rfl

theorem colAt_set_ne (cols : List (Option GoogTableCell)) (i j : Nat)
    (x : Option GoogTableCell) (h : i ≠ j) :
    colAt (cols.set i x) j = colAt cols j := by
  unfold colAt
  rw [List.getD_eq_getElem?_getD, List.getD_eq_getElem?_getD, List.getElem?_set_ne h]

theorem length_setRun (cell : GoogTableCell) :
    ∀ (m : Nat) (cols : List (Option GoogTableCell)) (colNum : Nat),
      (setRun cols cell colNum m).length = cols.length := by
  intro m
  induction m with
  | zero => intro cols colNum; rfl
  | succ m ih =>
      intro cols colNum
      show (setRun (cols.set colNum (some cell)) cell (colNum + 1) m).length = _
      rw [ih, List.length_set]

theorem colAt_setRun_out (cell : GoogTableCell) :
    ∀ (m : Nat) (cols : List (Option GoogTableCell)) (colNum j : Nat),
      (j < colNum ∨ colNum + m ≤ j) →
      colAt (setRun cols cell colNum m) j = colAt cols j := by
  intro m
  induction m with
  | zero => intro cols colNum j h; rfl
  | succ m ih =>
      intro cols colNum j h
      show colAt (setRun (cols.set colNum (some cell)) cell (colNum + 1) m) j = _
      rw [ih _ _ _ (by omega)]
      exact colAt_set_ne cols colNum j (some cell) (by omega)

theorem colAt_setRun_in (cell : GoogTableCell) :
    ∀ (m : Nat) (cols : List (Option GoogTableCell)) (colNum j : Nat),
      colNum ≤ j → j < colNum + m → colNum + m ≤ cols.length →
      colAt (setRun cols cell colNum m) j = some cell := by
  intro m
  induction m with
  | zero => intro cols colNum j h1 h2 h3; omega
  | succ m ih =>
      intro cols colNum j h1 h2 h3
      show colAt (setRun (cols.set colNum (some cell)) cell (colNum + 1) m) j = some cell
      rcases Nat.eq_or_lt_of_le h1 with heq | hlt
      · subst heq
        rw [colAt_setRun_out cell m _ _ _ (Or.inl (by omega))]
        exact colAt_set_self cols colNum (some cell) (by omega)
      · exact ih (cols.set colNum (some cell)) (colNum + 1) j hlt (by omega)
          (by rw [List.length_set]; omega)

theorem colAt_writeCols (r : GoogTableRow) (cell : GoogTableCell) (colNum j : Nat) :
    colAt (writeCols r cell colNum).columns j =
      if colNum ≤ j ∧ j < colNum + cell.colSpan then some cell else colAt r.columns j := by
  unfold writeCols
  by_cases h : colNum ≤ j ∧ j < colNum + cell.colSpan
  · rw [if_pos h]
    exact colAt_setRun_in cell cell.colSpan _ colNum j h.1 h.2 (by rw [length_padTo]; omega)
  · rw [if_neg h]
    rw [colAt_setRun_out cell cell.colSpan _ colNum j (by omega)]
    exact colAt_padTo r.columns (colNum + cell.colSpan) j

theorem length_placeOne (trs : List Tr) (cell : GoogTableCell) (colNum : Nat)
    (rows : List GoogTableRow) (rn : Nat) :
    (placeOne trs cell colNum rows rn).length =
      if rn < rows.length then rows.length else rows.length + 1 := by
  unfold placeOne
  cases h : rows[rn]? with
  | some r =>
      have hlt : rn < rows.length := by
        by_contra hge
        rw [List.getElem?_eq_none (by omega)] at h
        exact Option.noConfusion h
      rw [if_pos hlt]
      show (rows.set rn (writeCols r cell colNum)).length = rows.length
      rw [List.length_set]
  | none =>
      have hge : rows.length ≤ rn := List.getElem?_eq_none_iff.mp h
      rw [if_neg (by omega)]
      show (rows ++ [writeCols ⟨rn, (trs[rn]?).map Tr.id, []⟩ cell colNum]).length =
        rows.length + 1
      rw [List.length_append, List.length_singleton]

theorem cellAtRows_placeOne (trs : List Tr) (cell : GoogTableCell) (colNum : Nat)
    (rows : List GoogTableRow) (rn : Nat) (hrn : rn ≤ rows.length) (i j : Nat) :
    cellAtRows (placeOne trs cell colNum rows rn) i j =
      if i = rn ∧ colNum ≤ j ∧ j < colNum + cell.colSpan then some cell
      else cellAtRows rows i j := by
  unfold placeOne
  cases h : rows[rn]? with
  | some r =>
      have hlt : rn < rows.length := by
        by_contra hge
        rw [List.getElem?_eq_none (by omega)] at h
        exact Option.noConfusion h
      show cellAtRows (rows.set rn (writeCols r cell colNum)) i j = _
      by_cases hi : i = rn
      · subst hi
        unfold cellAtRows
        rw [List.getElem?_set_eq_of_lt _ hlt, h]
        show colAt (writeCols r cell colNum).columns j = _
        rw [colAt_writeCols]
        by_cases hj : colNum ≤ j ∧ j < colNum + cell.colSpan
        · rw [if_pos hj, if_pos ⟨rfl, hj⟩]
        · rw [if_neg hj, if_neg (by tauto)]
          rfl
      · unfold cellAtRows
        rw [List.getElem?_set_ne (fun hh => hi hh.symm)]
        rw [if_neg (by tauto)]
  | none =>
      have hge : rows.length ≤ rn := List.getElem?_eq_none_iff.mp h
      have heq : rn = rows.length := by omega
      show cellAtRows
        (rows ++ [writeCols ⟨rn, (trs[rn]?).map Tr.id, []⟩ cell colNum]) i j = _
      by_cases hi : i = rn
      · subst hi
        unfold cellAtRows
        rw [List.getElem?_append_right (by omega), show i - rows.length = 0 by omega, h]
        show colAt (writeCols ⟨i, (trs[i]?).map Tr.id, []⟩ cell colNum).columns j =
          if i = i ∧ colNum ≤ j ∧ j < colNum + cell.colSpan then some cell else none
        rw [colAt_writeCols]
        by_cases hj : colNum ≤ j ∧ j < colNum + cell.colSpan
        · rw [if_pos hj, if_pos ⟨rfl, hj⟩]
        · rw [if_neg hj, if_neg (by tauto)]
          rfl
      · unfold cellAtRows
        rw [if_neg (by tauto)]
        rcases Nat.lt_or_ge i rows.length with hil | hil
        · rw [List.getElem?_append_left hil]
        · rw [List.getElem?_eq_none (by rw [List.length_append, List.length_singleton]; omega)]
          rw [List.getElem?_eq_none hil]

theorem length_placeRows (trs : List Tr) (cell : GoogTableCell) (colNum : Nat) :
    ∀ (m : Nat) (rows : List GoogTableRow) (rn : Nat), rn ≤ rows.length →
      (placeRows trs cell colNum rows rn m).length = max rows.length (rn + m) := by
  intro m
  induction m with
  | zero => intro rows rn h; show rows.length = _; omega
  | succ m ih =>
      intro rows rn h
      show (placeRows trs cell colNum (placeOne trs cell colNum rows rn) (rn + 1) m).length = _
      rw [ih _ _ (by rw [length_placeOne]; split <;> omega)]
      rw [length_placeOne]
      split <;> omega

theorem cellAtRows_placeRows (trs : List Tr) (cell : GoogTableCell) (colNum : Nat) :
    ∀ (m : Nat) (rows : List GoogTableRow) (rn : Nat), rn ≤ rows.length → ∀ i j,
      cellAtRows (placeRows trs cell colNum rows rn m) i j =
        if rn ≤ i ∧ i < rn + m ∧ colNum ≤ j ∧ j < colNum + cell.colSpan then some cell
        else cellAtRows rows i j := by
  intro m
  induction m with
  | zero => intro rows rn h i j; rw [if_neg (by omega)]; rfl
  | succ m ih =>
      intro rows rn h i j
      show cellAtRows (placeRows trs cell colNum (placeOne trs cell colNum rows rn) (rn + 1) m) i j = _
      rw [ih _ _ (by rw [length_placeOne]; split <;> omega) i j]
      rw [cellAtRows_placeOne trs cell colNum rows rn h i j]
      by_cases h1 : rn + 1 ≤ i ∧ i < rn + 1 + m ∧ colNum ≤ j ∧ j < colNum + cell.colSpan
      · rw [if_pos h1, if_pos (by omega)]
      · rw [if_neg h1]
        by_cases h2 : i = rn ∧ colNum ≤ j ∧ j < colNum + cell.colSpan
        · rw [if_pos h2, if_pos (by omega)]
        · rw [if_neg h2, if_neg (by omega)]

theorem inRect_mkCell (td : Td) (rowNum cn i j : Nat) :
    inRect (mkCell td rowNum cn) i j ↔
      rowNum ≤ i ∧ i < rowNum + spanOf td.rowSpanAttr ∧
      cn ≤ j ∧ j < cn + spanOf td.colSpanAttr := by
  have h1 := spanOf_pos td.rowSpanAttr
  have h2 := spanOf_pos td.colSpanAttr
  unfold inRect mkCell
  dsimp only
  omega

theorem mkCell_rowSpan (td : Td) (r c : Nat) :
    (mkCell td r c).rowSpan = spanOf td.rowSpanAttr := rfl

theorem mkCell_colSpan (td : Td) (r c : Nat) :
    (mkCell td r c).colSpan = spanOf td.colSpanAttr := rfl

theorem length_processCell (trs : List Tr) (rowNum : Nat) (he : Bool)
    (st : List GoogTableRow × Nat) (td : Td) (h : rowNum ≤ st.1.length) :
    (processCell trs rowNum he st td).1.length =
      max st.1.length (rowNum + spanOf td.rowSpanAttr) := by
  have hgen : ∀ cn : Nat,
      (placeRows trs (mkCell td rowNum cn) cn st.1 rowNum (mkCell td rowNum cn).rowSpan).length =
        max st.1.length (rowNum + spanOf td.rowSpanAttr) := by
    intro cn
    rw [length_placeRows trs _ _ _ st.1 rowNum h, mkCell_rowSpan]
  exact hgen _

theorem cellAtRows_processCell (trs : List Tr) (rowNum : Nat) (he : Bool)
    (st : List GoogTableRow × Nat) (td : Td) (h : rowNum ≤ st.1.length) :
    ∃ cn, ∀ i j,
      cellAtRows (processCell trs rowNum he st td).1 i j =
        if inRect (mkCell td rowNum cn) i j then some (mkCell td rowNum cn)
        else cellAtRows st.1 i j := by
  have hgen : ∀ cn : Nat, ∀ i j,
      cellAtRows (placeRows trs (mkCell td rowNum cn) cn st.1 rowNum (mkCell td rowNum cn).rowSpan) i j =
        if inRect (mkCell td rowNum cn) i j then some (mkCell td rowNum cn)
        else cellAtRows st.1 i j := by
    intro cn i j
    rw [cellAtRows_placeRows trs _ _ _ st.1 rowNum h i j, mkCell_rowSpan, mkCell_colSpan]
    by_cases hin : inRect (mkCell td rowNum cn) i j
    · rw [if_pos hin, if_pos ((inRect_mkCell td rowNum cn i j).mp hin)]
    · rw [if_neg hin, if_neg (fun hh => hin ((inRect_mkCell td rowNum cn i j).mpr hh))]
  exact ⟨_, hgen _⟩

theorem inv_step (rowsOld rowsNew : List GoogTableRow) (cl : GoogTableCell)
    (hstep : ∀ i j, cellAtRows rowsNew i j =
      if inRect cl i j then some cl else cellAtRows rowsOld i j)
    (hOcc : OccInv rowsOld) (hFull : FullInv rowsOld) :
    OccInv rowsNew ∧ FullInv rowsNew := by
  constructor
  · intro i j c hc
    rw [hstep i j] at hc
    by_cases hij : inRect cl i j
    · rw [if_pos hij] at hc
      cases hc
      exact hij
    · rw [if_neg hij] at hc
      exact hOcc i j c hc
  · intro i j c hc p q hpq
    rw [hstep p q]
    rw [hstep i j] at hc
    by_cases hij : inRect cl i j
    · rw [if_pos hij] at hc
      cases hc
      rw [if_pos hpq]
      rfl
    · rw [if_neg hij] at hc
      by_cases hp : inRect cl p q
      · rw [if_pos hp]
        rfl
      · rw [if_neg hp]
        exact hFull i j c hc p q hpq

theorem cellsFold_inv (trs : List Tr) (rowNum : Nat) (he : Bool) (N : Nat) :
    ∀ (tds : List Td) (st : List GoogTableRow × Nat),
      rowNum ≤ st.1.length → st.1.length ≤ N →
      (∀ td ∈ tds, rowNum + spanOf td.rowSpanAttr ≤ N) →
      OccInv st.1 → FullInv st.1 →
      st.1.length ≤ (tds.foldl (processCell trs rowNum he) st).1.length ∧
      (tds.foldl (processCell trs rowNum he) st).1.length ≤ N ∧
      (∀ td ∈ tds,
        rowNum + spanOf td.rowSpanAttr ≤ (tds.foldl (processCell trs rowNum he) st).1.length) ∧
      OccInv (tds.foldl (processCell trs rowNum he) st).1 ∧
      FullInv (tds.foldl (processCell trs rowNum he) st).1 := by
  intro tds
  induction tds with
  | nil =>
      intro st h1 h2 h3 h4 h5
      exact ⟨Nat.le_refl _, h2, by simp, h4, h5⟩
  | cons td rest ih =>
      intro st h1 h2 h3 h4 h5
      rw [List.foldl_cons]
      have hlen : (processCell trs rowNum he st td).1.length =
          max st.1.length (rowNum + spanOf td.rowSpanAttr) :=
        length_processCell trs rowNum he st td h1
      obtain ⟨cn, hcn⟩ := cellAtRows_processCell trs rowNum he st td h1
      have hinv := inv_step st.1 (processCell trs rowNum he st td).1 (mkCell td rowNum cn) hcn h4 h5
      have hspan : rowNum + spanOf td.rowSpanAttr ≤ N := h3 td (List.mem_cons_self td rest)
      have h1a : rowNum ≤ (processCell trs rowNum he st td).1.length := by rw [hlen]; omega
      have h2a : (processCell trs rowNum he st td).1.length ≤ N := by rw [hlen]; omega
      have h3a : ∀ td2 ∈ rest, rowNum + spanOf td2.rowSpanAttr ≤ N :=
        fun td2 hm => h3 td2 (List.mem_cons_of_mem td hm)
      obtain ⟨o1, o2, o3, o4, o5⟩ :=
        ih (processCell trs rowNum he st td) h1a h2a h3a hinv.1 hinv.2
      refine ⟨?_, o2, ?_, o4, o5⟩
      · exact le_trans (by rw [hlen]; omega) o1
      · intro td2 hm
        rcases List.mem_cons.mp hm with heq | hm2
        · subst heq
          exact le_trans (by rw [hlen]; omega) o1
        · exact o3 td2 hm2

theorem processRow_inv (trs : List Tr) (N : Nat) (rows : List GoogTableRow)
    (rowNum : Nat) (tr : Tr)
    (h1 : rowNum ≤ rows.length) (h2 : rows.length ≤ N)
    (h3 : ∀ td ∈ tr.cells, rowNum + spanOf td.rowSpanAttr ≤ N)
    (h4 : OccInv rows) (h5 : FullInv rows) :
    rows.length ≤ (processRow trs rows rowNum tr).length ∧
    (processRow trs rows rowNum tr).length ≤ N ∧
    (∀ td ∈ tr.cells, rowNum + spanOf td.rowSpanAttr ≤ (processRow trs rows rowNum tr).length) ∧
    OccInv (processRow trs rows rowNum tr) ∧ FullInv (processRow trs rows rowNum tr) := by
  unfold processRow
  exact cellsFold_inv trs rowNum _ N tr.cells (rows, 0) h1 h2 h3 h4 h5

theorem loopRows_inv (trs : List Tr)
    (H1 : RowsNonemptyOrCovered trs) (H2 : SpansInBounds trs) :
    ∀ (rest : List Tr) (rowNum : Nat) (rows : List GoogTableRow),
      rest = trs.drop rowNum →
      rows.length ≤ trs.length →
      rowNum ≤ rows.length →
      (∀ j, j < rowNum → ∀ td ∈ (trs.getD j ⟨0, []⟩).cells,
        j + spanOf td.rowSpanAttr ≤ rows.length) →
      OccInv rows → FullInv rows →
      (loopRows trs rows rowNum rest).length = trs.length ∧
      OccInv (loopRows trs rows rowNum rest) ∧ FullInv (loopRows trs rows rowNum rest) := by
  intro rest
  induction rest with
  | nil =>
      intro rowNum rows hdrop hlen hrlen hhist h4 h5
      have hN : trs.length ≤ rowNum := by
        have hd := congrArg List.length hdrop
        rw [List.length_drop] at hd
        simp only [List.length_nil] at hd
        omega
      refine ⟨?_, h4, h5⟩
      show rows.length = trs.length
      omega
  | cons tr rest2 ih =>
      intro rowNum rows hdrop hlen hrlen hhist h4 h5
      have hlt : rowNum < trs.length := by
        by_contra hge
        rw [List.drop_eq_nil_of_le (by omega)] at hdrop
        exact List.noConfusion hdrop
      rw [List.drop_eq_getElem_cons hlt] at hdrop
      injection hdrop with htr hdrop2
      have htrD : trs.getD rowNum ⟨0, []⟩ = tr := by
        rw [List.getD_eq_getElem trs ⟨0, []⟩ hlt]
        exact htr.symm
      have h3 : ∀ td ∈ tr.cells, rowNum + spanOf td.rowSpanAttr ≤ trs.length := by
        intro td hm
        exact H2 rowNum hlt td (htrD ▸ hm)
      obtain ⟨p1, p2, p3, p4, p5⟩ :=
        processRow_inv trs trs.length rows rowNum tr hrlen hlen h3 h4 h5
      have hhist2 : ∀ j, j < rowNum + 1 → ∀ td ∈ (trs.getD j ⟨0, []⟩).cells,
          j + spanOf td.rowSpanAttr ≤ (processRow trs rows rowNum tr).length := by
        intro j hj td hm
        rcases Nat.lt_or_ge j rowNum with hj2 | hj2
        · exact le_trans (hhist j hj2 td hm) p1
        · have hjeq : j = rowNum := by omega
          subst hjeq
          exact p3 td (htrD ▸ hm)
      have hrlen2 : rowNum + 1 ≤ (processRow trs rows rowNum tr).length := by
        rcases H1 rowNum hlt with hne | ⟨j, hjlt, td, hmem, hcov⟩
        · rw [htrD] at hne
          obtain ⟨td, hm⟩ := List.exists_mem_of_ne_nil tr.cells hne
          have hb := p3 td hm
          have hpos := spanOf_pos td.rowSpanAttr
          omega
        · have hb := hhist2 j (by omega) td hmem
          omega
      show (loopRows trs (processRow trs rows rowNum tr) (rowNum + 1) rest2).length = trs.length ∧ _
      exact ih (rowNum + 1) (processRow trs rows rowNum tr) hdrop2 p2 hrlen2 hhist2 p4 p5

theorem occInv_nil : OccInv [] := by
  intro i j c hc
  exact Option.noConfusion hc

theorem fullInv_nil : FullInv [] := by
  intro i j c hc
  exact Option.noConfusion hc

/-- C3 (amended): rows.length equals the number of physical row nodes for
every table in which each physical row either has a cell child of its own or
is covered by the rowSpan of a cell of an earlier row, and no rowSpan reaches
past the last physical row.  A physical row with no cell children and no
covering span produces no row entry at all (see the counterexample), not an
entry with empty columns. -/
theorem refresh_rows_length (trs : List Tr)
    (H1 : RowsNonemptyOrCovered trs) (H2 : SpansInBounds trs) :
    (refresh ⟨some trs⟩).length = trs.length := by
  have h := loopRows_inv trs H1 H2 trs 0 [] rfl (by simp) (by simp)
    (by intro j hj; omega) occInv_nil fullInv_nil
  exact h.1

/-- Witness for C3: a 2-row table whose second row is empty but covered by
the rowSpan-2 cell of the first row refreshes to exactly 2 row entries. -/
theorem refresh_rows_length_witness :
    (refresh t3w).length = 2 :=
  refresh_rows_length [⟨0, [⟨1, none, some 2, []⟩]⟩, ⟨10, []⟩] (by decide) (by decide)

theorem getD_some_mem :
    ∀ (l : List (Option GoogTableCell)) (n : Nat) (c : GoogTableCell),
      l.getD n none = some c → some c ∈ l := by
  intro l
  induction l with
  | nil => intro n c h; exact Option.noConfusion h
  | cons a t ih =>
      intro n c h
      cases n with
      | zero => exact List.mem_cons.mpr (Or.inl (by exact h.symm))
      | succ n => exact List.mem_cons.mpr (Or.inr (ih n c h))

theorem cellAtRows_mem_gridCells (rows : List GoogTableRow) (i j : Nat)
    (c : GoogTableCell) (h : cellAtRows rows i j = some c) : c ∈ gridCells rows := by
  unfold cellAtRows at h
  cases hr : rows[i]? with
  | none => rw [hr] at h; exact Option.noConfusion h
  | some r =>
      rw [hr] at h
      have hcol : colAt r.columns j = some c := h
      have hmemr : r ∈ rows := List.getElem?_mem hr
      have hsome : some c ∈ r.columns := getD_some_mem r.columns j c hcol
      unfold gridCells
      rw [List.mem_flatten]
      refine ⟨r.columns.reduceOption, ?_, ?_⟩
      · exact List.mem_map.mpr ⟨r, hmemr, rfl⟩
      · exact List.reduceOption_mem_iff.mpr hsome

theorem rectsIntersect_of_common (c d : GoogTableCell) (p q : Nat)
    (h1 : inRect c p q) (h2 : inRect d p q) : rectsIntersect c d := by
  unfold inRect at h1 h2
  unfold rectsIntersect
  omega

/-- C4 (amended): for every table in which each physical row has a cell of
its own or is covered by a span from above, no rowSpan overruns the last
physical row, and the span rectangles of the refreshed grid's cells are
pairwise disjoint, every cell of the refreshed grid occupies exactly its
rectangle: rows[i].columns[j] is that cell for every (i, j) it spans.  With
overlapping spans a later cell overwrites slots of an earlier one and the
claim fails (see the counterexample). -/
theorem refresh_coverage (trs : List Tr)
    (H1 : RowsNonemptyOrCovered trs) (H2 : SpansInBounds trs)
    (H3 : CellsDisjoint (refresh ⟨some trs⟩))
    (i j : Nat) (c : GoogTableCell)
    (hc : cellAtRows (refresh ⟨some trs⟩) i j = some c)
    (p q : Nat) (hpq : inRect c p q) :
    cellAtRows (refresh ⟨some trs⟩) p q = some c := by
  obtain ⟨-, hOcc, hFull⟩ := loopRows_inv trs H1 H2 trs 0 [] rfl (by simp) (by simp)
    (by intro j2 hj2; omega) occInv_nil fullInv_nil
  have hsome : (cellAtRows (refresh ⟨some trs⟩) p q).isSome := hFull i j c hc p q hpq
  obtain ⟨d, hd⟩ := Option.isSome_iff_exists.mp hsome
  have hdrect : inRect d p q := hOcc p q d hd
  by_cases hdc : d = c
  · rw [← hdc]
    exact hd
  · exfalso
    have hcmem := cellAtRows_mem_gridCells (refresh ⟨some trs⟩) i j c hc
    have hdmem := cellAtRows_mem_gridCells (refresh ⟨some trs⟩) p q d hd
    exact H3 c hcmem d hdmem (fun hh => hdc hh.symm)
      (rectsIntersect_of_common c d p q hpq hdrect)

/-- Witness for C4: in the well-formed t4w layout the rowSpan-2 cell visible
at (0,0) also occupies (1,0). -/
theorem refresh_coverage_witness :
    cellAtRows (refresh ⟨some [⟨20, [⟨1, none, some 2, []⟩, ⟨2, none, none, []⟩]⟩,
      ⟨21, [⟨3, none, none, []⟩]⟩]⟩) 1 0 = some aCell :=
  refresh_coverage [⟨20, [⟨1, none, some 2, []⟩, ⟨2, none, none, []⟩]⟩,
      ⟨21, [⟨3, none, none, []⟩]⟩] (by decide) (by decide) (by decide)
    0 0 aCell rfl 1 0 (by decide)
